import Mathlib

set_option linter.unusedVariables false

/-!
Shallow embedding of the AES-CCM driver in `nrf-hal-common/src/ccm.rs`
(`CcmData`, `encrypt_packet`, `decrypt_packet`), together with theorems
checking the natural-language specification against it.

Modelling conventions:
* Byte buffers are `List Nat` (bytes); machine integers are `Nat` with
  explicit `% 2^w` where overflow matters.
* The external buffer-residency predicate and the hardware engine are
  oracles: each `Buffer` carries an `in_ram` flag, and an `EngineOutcome`
  records the signals the driver would observe after the crypt run
  (error event, MIC status) plus the bytes the engine DMA writes into the
  output buffer.
* A Rust slice-index or `copy_from_slice` that could panic is modelled by
  `Option`: the functions return `none` exactly when the Rust code would
  panic, so panic-freedom is the statement that the result is always `some`.
-/

/-- CCM error kinds, from `enum CcmError` in `ccm.rs`. -/
inductive CcmError where
  | BufferNotInRAM
  | EasyDMAError
  | WrongPacketLength
  | InsufficientScratchArea
  | InvalidMIC
deriving DecidableEq

/-- `MINIMUM_SCRATCH_AREA_SIZE` constant from `ccm.rs`. -/
def MINIMUM_SCRATCH_AREA_SIZE : Nat := 43

/-- `HEADER_SIZE` constant from `ccm.rs`. -/
def HEADER_SIZE : Nat := 3

/-- `LENGTH_HEADER_INDEX` constant from `ccm.rs`. -/
def LENGTH_HEADER_INDEX : Nat := 1

/-- `MIC_SIZE` constant from `ccm.rs`. -/
def MIC_SIZE : Nat := 4

/-- `MAXIMUM_LENGTH_5BITS` constant from `ccm.rs`. -/
def MAXIMUM_LENGTH_5BITS : Nat := 31

/-- `MAXIMUM_COUNTER` constant from `ccm.rs` (39-bit counter maximum). -/
def MAXIMUM_COUNTER : Nat := 0x7FFFFFFFFF

/-- Little-endian byte decomposition: `k` bytes of `n` (least significant first). -/
def natToLeBytes : Nat → Nat → List Nat
  | 0, _ => []
  | k + 1, n => n % 256 :: natToLeBytes k (n / 256)

/-- `u64::from_le_bytes`: recompose a little-endian byte list into a number. -/
def u64_from_le_bytes (bs : List Nat) : Nat :=
  bs.foldr (fun b acc => b + 256 * acc) 0

/-- `u64::to_le_bytes`: the 8 little-endian bytes of `n` (mod `2^64`). -/
def u64_to_le_bytes (n : Nat) : List Nat :=
  natToLeBytes 8 (n % 2 ^ 64)

/-- `struct CcmData` from `ccm.rs`: key, 8-byte little-endian packet counter,
direction byte and initialization vector. -/
structure CcmData where
  key : List Nat
  packet_counter : List Nat
  direction : Nat
  initialization_vector : List Nat
deriving DecidableEq

/-- `CcmData::new`: zero counter and direction. -/
def CcmData.new (key initialization_vector : List Nat) : CcmData :=
  ⟨key, List.replicate 8 0, 0, initialization_vector⟩

/-- `CcmData::increment_counter`: decode the counter from its little-endian
bytes, add one if below `MAXIMUM_COUNTER`, else wrap to zero, re-encode. -/
def CcmData.increment_counter (d : CcmData) : CcmData :=
  let counter := u64_from_le_bytes d.packet_counter
  let counter := if counter < MAXIMUM_COUNTER then counter + 1 else 0
  ⟨d.key, u64_to_le_bytes counter, d.direction, d.initialization_vector⟩

/-- The decoded counter value of a `CcmData`. -/
def CcmData.counter (d : CcmData) : Nat :=
  u64_from_le_bytes d.packet_counter

/-- A byte slice together with the oracle answer of the external
buffer-residency predicate for it. -/
structure Buffer where
  data : List Nat
  in_ram : Bool
deriving DecidableEq

/-- Modelled from the spec: the external buffer-residency predicate
`slice_in_ram` (defined outside `ccm.rs`) is "a pure function
`isEngineAddressable(buffer) -> bool`" consumed as-is; here it reads the
oracle flag carried by the buffer. -/
def slice_in_ram (b : Buffer) : Bool :=
  b.in_ram

/-- Compile-time device-family configuration: `feature51` is the `"51"`
cargo feature; `hasMaxPacketSize` is `any("52840","52833","52810")`
(families with a MAXPACKETSIZE register). -/
structure Family where
  feature51 : Bool
  hasMaxPacketSize : Bool
deriving DecidableEq

/-- `LENGTH_A` mode-register length-encoding variants (non-51 families). -/
inductive LENGTH_A where
  | DEFAULT
  | EXTENDED
deriving DecidableEq

/-- Oracle for one engine run: the `events_error` signal observed after the
crypt poll loop, the MICSTATUS check-failed flag, and the bytes the engine
DMA leaves in the output buffer. -/
structure EngineOutcome where
  error_event : Bool
  mic_check_failed : Bool
  output : List Nat
deriving DecidableEq

/-- Observable result of one `encrypt_packet`/`decrypt_packet` call:
the returned `Result` (`none` = `Ok(())`), the `CcmData` after the call,
the final content of the output packet buffer, whether the engine was
programmed and started, which length-encoding variant was written to the
mode register (`none` on 51-family, which has no length field), and the
value written to the MAXPACKETSIZE register, when any. -/
structure RunResult where
  res : Option CcmError
  ccm_data : CcmData
  out_data : List Nat
  engine_started : Bool
  length_variant : Option LENGTH_A
  maxpacketsize_write : Option Nat
deriving DecidableEq

/-- Length-encoding selection of `encrypt_packet` (non-51 families):
`DEFAULT` when `payload_len <= MAXIMUM_LENGTH_5BITS - MIC_SIZE`,
else `EXTENDED`. -/
def encLengthVariant (fam : Family) (payload_len : Nat) : Option LENGTH_A :=
  if fam.feature51 then none
  else if payload_len ≤ MAXIMUM_LENGTH_5BITS - MIC_SIZE then some LENGTH_A.DEFAULT
  else some LENGTH_A.EXTENDED

/-- MAXPACKETSIZE register write of `encrypt_packet`: only on families with
that register, and only on the `EXTENDED` branch; the value is
`payload_len as u8`. -/
def encMaxPacketSizeWrite (fam : Family) (payload_len : Nat) : Option Nat :=
  if fam.feature51 = false ∧ fam.hasMaxPacketSize = true
      ∧ MAXIMUM_LENGTH_5BITS - MIC_SIZE < payload_len
  then some (payload_len % 256) else none

/-- Length-encoding selection of `decrypt_packet` (non-51 families):
`DEFAULT` when `payload_len <= MAXIMUM_LENGTH_5BITS`, else `EXTENDED`. -/
def decLengthVariant (fam : Family) (payload_len : Nat) : Option LENGTH_A :=
  if fam.feature51 then none
  else if payload_len ≤ MAXIMUM_LENGTH_5BITS then some LENGTH_A.DEFAULT
  else some LENGTH_A.EXTENDED

/-- MAXPACKETSIZE register write of `decrypt_packet`. -/
def decMaxPacketSizeWrite (fam : Family) (payload_len : Nat) : Option Nat :=
  if fam.feature51 = false ∧ fam.hasMaxPacketSize = true
      ∧ MAXIMUM_LENGTH_5BITS < payload_len
  then some (payload_len % 256) else none

/-- `Ccm::encrypt_packet` from `ccm.rs`, for a given device family, with the
engine behaviour supplied by the `EngineOutcome` oracle. Returns `none`
exactly when the Rust code would panic (it never does, see the theorems). -/
def encrypt_packet (fam : Family) (ccm_data : CcmData)
    (clear_packet cipher_packet scratch : Buffer)
    (engine : EngineOutcome) : Option RunResult :=
  if !(slice_in_ram clear_packet && slice_in_ram cipher_packet && slice_in_ram scratch) then
    some ⟨some CcmError.BufferNotInRAM, ccm_data, cipher_packet.data, false, none, none⟩
  else if clear_packet.data.length < HEADER_SIZE ∨ cipher_packet.data.length < HEADER_SIZE then
    some ⟨some CcmError.WrongPacketLength, ccm_data, cipher_packet.data, false, none, none⟩
  else
    match clear_packet.data.get? LENGTH_HEADER_INDEX with
    | none => none
    | some payload_len =>
      if payload_len = 0 then
        -- `cipher_packet[..HEADER_SIZE].copy_from_slice(&clear_packet[..HEADER_SIZE])`
        if HEADER_SIZE ≤ clear_packet.data.length ∧ HEADER_SIZE ≤ cipher_packet.data.length then
          some ⟨none, ccm_data,
                clear_packet.data.take HEADER_SIZE ++ cipher_packet.data.drop HEADER_SIZE,
                false, none, none⟩
        else none
      else if clear_packet.data.length < payload_len + HEADER_SIZE
          ∨ cipher_packet.data.length < payload_len + HEADER_SIZE + MIC_SIZE
          ∨ payload_len + MIC_SIZE > 255 then
        some ⟨some CcmError.WrongPacketLength, ccm_data, cipher_packet.data, false, none, none⟩
      else if scratch.data.length < max (payload_len + 16) MINIMUM_SCRATCH_AREA_SIZE then
        some ⟨some CcmError.InsufficientScratchArea, ccm_data, cipher_packet.data,
              false, none, none⟩
      else if fam.feature51 = true ∧ MAXIMUM_LENGTH_5BITS - MIC_SIZE < payload_len then
        some ⟨some CcmError.WrongPacketLength, ccm_data, cipher_packet.data, false, none, none⟩
      else if engine.error_event then
        some ⟨some CcmError.EasyDMAError, ccm_data, engine.output, true,
              encLengthVariant fam payload_len, encMaxPacketSizeWrite fam payload_len⟩
      else
        some ⟨none, ccm_data.increment_counter, engine.output, true,
              encLengthVariant fam payload_len, encMaxPacketSizeWrite fam payload_len⟩

/-- `Ccm::decrypt_packet` from `ccm.rs`, same conventions as
`encrypt_packet`; the output buffer is the clear packet. -/
def decrypt_packet (fam : Family) (ccm_data : CcmData)
    (clear_packet cipher_packet scratch : Buffer)
    (engine : EngineOutcome) : Option RunResult :=
  if !(slice_in_ram clear_packet && slice_in_ram cipher_packet && slice_in_ram scratch) then
    some ⟨some CcmError.BufferNotInRAM, ccm_data, clear_packet.data, false, none, none⟩
  else if clear_packet.data.length < HEADER_SIZE ∨ cipher_packet.data.length < HEADER_SIZE then
    some ⟨some CcmError.WrongPacketLength, ccm_data, clear_packet.data, false, none, none⟩
  else
    match cipher_packet.data.get? LENGTH_HEADER_INDEX with
    | none => none
    | some payload_len =>
      if payload_len = 0 then
        -- `clear_packet[..HEADER_SIZE].copy_from_slice(&cipher_packet[..HEADER_SIZE])`
        if HEADER_SIZE ≤ cipher_packet.data.length ∧ HEADER_SIZE ≤ clear_packet.data.length then
          some ⟨none, ccm_data,
                cipher_packet.data.take HEADER_SIZE ++ clear_packet.data.drop HEADER_SIZE,
                false, none, none⟩
        else none
      else if payload_len < 5 then
        some ⟨some CcmError.InvalidMIC, ccm_data, clear_packet.data, false, none, none⟩
      else if cipher_packet.data.length < payload_len + HEADER_SIZE
          ∨ clear_packet.data.length < payload_len + HEADER_SIZE - MIC_SIZE then
        some ⟨some CcmError.WrongPacketLength, ccm_data, clear_packet.data, false, none, none⟩
      else if scratch.data.length < max (payload_len + 16) MINIMUM_SCRATCH_AREA_SIZE then
        some ⟨some CcmError.InsufficientScratchArea, ccm_data, clear_packet.data,
              false, none, none⟩
      else if fam.feature51 = true ∧ MAXIMUM_LENGTH_5BITS < payload_len then
        some ⟨some CcmError.WrongPacketLength, ccm_data, clear_packet.data, false, none, none⟩
      else if engine.error_event then
        some ⟨some CcmError.EasyDMAError, ccm_data, engine.output, true,
              decLengthVariant fam payload_len, decMaxPacketSizeWrite fam payload_len⟩
      else if engine.mic_check_failed then
        some ⟨some CcmError.InvalidMIC, ccm_data, engine.output, true,
              decLengthVariant fam payload_len, decMaxPacketSizeWrite fam payload_len⟩
      else
        some ⟨none, ccm_data.increment_counter, engine.output, true,
              decLengthVariant fam payload_len, decMaxPacketSizeWrite fam payload_len⟩

/-! ### Counter arithmetic -/

lemma u64_from_natToLeBytes (k n : Nat) :
    u64_from_le_bytes (natToLeBytes k n) = n % 256 ^ k := by
  induction k generalizing n with
  | zero => simp [natToLeBytes, u64_from_le_bytes, Nat.mod_one]
  | succ k ih =>
    show u64_from_le_bytes (n % 256 :: natToLeBytes k (n / 256)) = n % 256 ^ (k + 1)
    simp only [u64_from_le_bytes, List.foldr_cons]
    have h := ih (n / 256)
    simp only [u64_from_le_bytes] at h
    rw [h, pow_succ', Nat.mod_mul]

lemma u64_round_trip (n : Nat) (h : n < 2 ^ 64) :
    u64_from_le_bytes (u64_to_le_bytes n) = n := by
  unfold u64_to_le_bytes
  rw [u64_from_natToLeBytes]
  have h8 : (256 : Nat) ^ 8 = 2 ^ 64 := by norm_num
  rw [h8, Nat.mod_eq_of_lt h, Nat.mod_eq_of_lt h]

/-- C9: for every counter value `c` in `[0, 2^39 - 2]`, `increment_counter`
changes the decoded counter to `c + 1`; at the maximum `2^39 - 1` it wraps
to `0`; and after any increment the counter stays within `[0, 2^39 - 1]`
(there is no error path). -/
theorem increment_counter_spec (d : CcmData) (c : Nat)
    (hc : CcmData.counter d = c) :
    (c ≤ MAXIMUM_COUNTER - 1 → CcmData.counter d.increment_counter = c + 1) ∧
    (c = MAXIMUM_COUNTER → CcmData.counter d.increment_counter = 0) ∧
    CcmData.counter d.increment_counter ≤ MAXIMUM_COUNTER := by
  subst hc
  have hred : CcmData.counter d.increment_counter
      = u64_from_le_bytes (u64_to_le_bytes
          (if u64_from_le_bytes d.packet_counter < MAXIMUM_COUNTER
           then u64_from_le_bytes d.packet_counter + 1 else 0)) := rfl
  rw [hred]
  by_cases hlt : u64_from_le_bytes d.packet_counter < MAXIMUM_COUNTER
  · rw [if_pos hlt]
    have hb : u64_from_le_bytes d.packet_counter + 1 < 2 ^ 64 := by
      unfold MAXIMUM_COUNTER at hlt; omega
    rw [u64_round_trip _ hb]
    unfold MAXIMUM_COUNTER CcmData.counter at *
    exact ⟨fun _ => rfl, fun h => by omega, by omega⟩
  · rw [if_neg hlt]
    rw [u64_round_trip 0 (by norm_num)]
    unfold MAXIMUM_COUNTER CcmData.counter at *
    exact ⟨fun h => by omega, fun _ => rfl, by omega⟩

theorem increment_counter_spec_witness :
    CcmData.counter (CcmData.new (List.replicate 16 0) (List.replicate 8 0)) = 0 ∧
    CcmData.counter
      (CcmData.new (List.replicate 16 0) (List.replicate 8 0)).increment_counter = 1 := by
  refine ⟨by decide, ?_⟩
  exact (increment_counter_spec (CcmData.new (List.replicate 16 0) (List.replicate 8 0)) 0
    (by decide)).1 (by decide)

/-! ### Path case analysis for the counter -/

lemma encrypt_ccm_data_cases (fam : Family) (d : CcmData)
    (cl ci sc : Buffer) (eng : EngineOutcome) (re : RunResult)
    (he : encrypt_packet fam d cl ci sc eng = some re) :
    (re.res.isSome = true → re.ccm_data = d) ∧
    (re.res = none → re.engine_started = true → re.ccm_data = d.increment_counter) ∧
    (re.res = none → re.engine_started = false → re.ccm_data = d) := by
  unfold encrypt_packet at he
  repeat' split at he
  all_goals try (simp only [Option.some.injEq] at he; subst he)
  all_goals simp_all

lemma decrypt_ccm_data_cases (fam : Family) (d : CcmData)
    (cl ci sc : Buffer) (eng : EngineOutcome) (rd : RunResult)
    (hd : decrypt_packet fam d cl ci sc eng = some rd) :
    (rd.res.isSome = true → rd.ccm_data = d) ∧
    (rd.res = none → rd.engine_started = true → rd.ccm_data = d.increment_counter) ∧
    (rd.res = none → rd.engine_started = false → rd.ccm_data = d) := by
  unfold decrypt_packet at hd
  repeat' split at hd
  all_goals try (simp only [Option.some.injEq] at hd; subst hd)
  all_goals simp_all

/-- C1: for both `encrypt_packet` and `decrypt_packet`, any error return
leaves the `CcmData` (hence the nonce counter) exactly as it was; a success
of the engine-run path (`engine_started = true`) increments the counter
exactly once; a success of the zero-payload shortcut
(`engine_started = false`) leaves it unchanged. -/
theorem counter_only_on_success (fam : Family) (d : CcmData)
    (cl ci sc : Buffer) (eng : EngineOutcome) (re rd : RunResult)
    (he : encrypt_packet fam d cl ci sc eng = some re)
    (hd : decrypt_packet fam d cl ci sc eng = some rd) :
    ((re.res.isSome = true → re.ccm_data = d) ∧
     (re.res = none → re.engine_started = true → re.ccm_data = d.increment_counter) ∧
     (re.res = none → re.engine_started = false → re.ccm_data = d)) ∧
    ((rd.res.isSome = true → rd.ccm_data = d) ∧
     (rd.res = none → rd.engine_started = true → rd.ccm_data = d.increment_counter) ∧
     (rd.res = none → rd.engine_started = false → rd.ccm_data = d)) :=
  ⟨encrypt_ccm_data_cases fam d cl ci sc eng re he,
   decrypt_ccm_data_cases fam d cl ci sc eng rd hd⟩

/-! ### Concrete inputs used by witnesses and counterexamples -/

/-- A non-51 device family without a MAXPACKETSIZE register (e.g. nRF52832). -/
def wFam : Family := ⟨false, false⟩

/-- The nRF51 device family. -/
def wFam51 : Family := ⟨true, false⟩

/-- A device family with a MAXPACKETSIZE register (e.g. nRF52840). -/
def wFam40 : Family := ⟨false, true⟩

/-- A fresh `CcmData` with zero key and IV. -/
def wD : CcmData := CcmData.new (List.replicate 16 0) (List.replicate 8 0)

/-- A well-formed cleartext packet with a 1-byte payload. -/
def wClear : Buffer := ⟨[0, 1, 0, 9], true⟩

/-- A RAM-resident 8-byte buffer (cipher side for `wClear`); its length
field is zero, so it drives the decrypt zero-payload shortcut. -/
def wCipher : Buffer := ⟨List.replicate 8 0, true⟩

/-- A 43-byte RAM-resident scratch buffer. -/
def wScratch : Buffer := ⟨List.replicate 43 0, true⟩

/-- An engine run that completes without error and with a passing MIC. -/
def wEngineOk : EngineOutcome := ⟨false, false, []⟩

/-- An engine run that raises the error signal. -/
def wEngineErr : EngineOutcome := ⟨true, false, []⟩

/-- An engine run that completes without error but fails the MIC check. -/
def wEngineMic : EngineOutcome := ⟨false, true, []⟩

/-- Result of the successful encrypt engine run on the inputs above. -/
def wEncOkRes : RunResult :=
  ⟨none, wD.increment_counter, [], true, some LENGTH_A.DEFAULT, none⟩

/-- Result of the decrypt zero-payload shortcut on the inputs above. -/
def wDecCopyRes : RunResult := ⟨none, wD, [0, 0, 0, 9], false, none, none⟩

theorem counter_only_on_success_witness :
    encrypt_packet wFam wD wClear wCipher wScratch wEngineOk = some wEncOkRes ∧
    decrypt_packet wFam wD wClear wCipher wScratch wEngineOk = some wDecCopyRes ∧
    (((wEncOkRes.res.isSome = true → wEncOkRes.ccm_data = wD) ∧
      (wEncOkRes.res = none → wEncOkRes.engine_started = true →
        wEncOkRes.ccm_data = wD.increment_counter) ∧
      (wEncOkRes.res = none → wEncOkRes.engine_started = false → wEncOkRes.ccm_data = wD)) ∧
     ((wDecCopyRes.res.isSome = true → wDecCopyRes.ccm_data = wD) ∧
      (wDecCopyRes.res = none → wDecCopyRes.engine_started = true →
        wDecCopyRes.ccm_data = wD.increment_counter) ∧
      (wDecCopyRes.res = none → wDecCopyRes.engine_started = false →
        wDecCopyRes.ccm_data = wD))) :=
  ⟨by decide, by decide,
   counter_only_on_success wFam wD wClear wCipher wScratch wEngineOk wEncOkRes wDecCopyRes
     (by decide) (by decide)⟩

/-- C10: neither operation ever performs an out-of-bounds slice access: for
arbitrary buffer contents and lengths the model never reaches a panic
(`none`) — the length-field read and the 3-byte header copies are guarded
by the header-size check, so both operations are total. -/
theorem no_out_of_bounds_access (fam : Family) (d : CcmData)
    (cl ci sc : Buffer) (eng : EngineOutcome) :
    (encrypt_packet fam d cl ci sc eng).isSome = true ∧
    (decrypt_packet fam d cl ci sc eng).isSome = true := by
  constructor
  · unfold encrypt_packet
    repeat' split
    all_goals simp_all [HEADER_SIZE, LENGTH_HEADER_INDEX, List.get?_eq_none]
    all_goals omega
  · unfold decrypt_packet
    repeat' split
    all_goals simp_all [HEADER_SIZE, LENGTH_HEADER_INDEX, List.get?_eq_none]
    all_goals omega

/-- C7: if any of the three buffers fails the residency predicate, both
operations return `BufferNotInRAM` with no other observable effect — the
check precedes every header/length check (no length hypotheses are needed)
and no hardware state is touched. -/
theorem buffer_not_in_ram_first (fam : Family) (d : CcmData)
    (cl ci sc : Buffer) (eng : EngineOutcome) (re rd : RunResult)
    (he : encrypt_packet fam d cl ci sc eng = some re)
    (hd : decrypt_packet fam d cl ci sc eng = some rd)
    (h : slice_in_ram cl = false ∨ slice_in_ram ci = false ∨ slice_in_ram sc = false) :
    re = ⟨some CcmError.BufferNotInRAM, d, ci.data, false, none, none⟩ ∧
    rd = ⟨some CcmError.BufferNotInRAM, d, cl.data, false, none, none⟩ := by
  constructor
  · unfold encrypt_packet at he
    repeat' split at he
    all_goals try (simp only [Option.some.injEq] at he; subst he)
    all_goals simp_all
  · unfold decrypt_packet at hd
    repeat' split at hd
    all_goals try (simp only [Option.some.injEq] at hd; subst hd)
    all_goals simp_all

/-- A 4-byte buffer that the residency predicate rejects. -/
def wNotRam : Buffer := ⟨[0, 1, 0, 9], false⟩

theorem buffer_not_in_ram_first_witness :
    encrypt_packet wFam wD wClear wCipher wNotRam wEngineOk =
      some ⟨some CcmError.BufferNotInRAM, wD, wCipher.data, false, none, none⟩ ∧
    decrypt_packet wFam wD wClear wCipher wNotRam wEngineOk =
      some ⟨some CcmError.BufferNotInRAM, wD, wClear.data, false, none, none⟩ ∧
    slice_in_ram wNotRam = false ∧
    ((⟨some CcmError.BufferNotInRAM, wD, wCipher.data, false, none, none⟩ : RunResult) =
        ⟨some CcmError.BufferNotInRAM, wD, wCipher.data, false, none, none⟩ ∧
     (⟨some CcmError.BufferNotInRAM, wD, wClear.data, false, none, none⟩ : RunResult) =
        ⟨some CcmError.BufferNotInRAM, wD, wClear.data, false, none, none⟩) :=
  ⟨by decide, by decide, by decide,
   buffer_not_in_ram_first wFam wD wClear wCipher wNotRam wEngineOk
     ⟨some CcmError.BufferNotInRAM, wD, wCipher.data, false, none, none⟩
     ⟨some CcmError.BufferNotInRAM, wD, wClear.data, false, none, none⟩
     (by decide) (by decide) (Or.inr (Or.inr (by decide)))⟩

/-- C8: whenever the engine run ends with the error signal set, both
operations return `EasyDMAError`; for decrypt this holds for every value of
the MIC-status signal (the theorem quantifies over `eng.mic_check_failed`),
so the bus-error check strictly precedes the MIC-status check. -/
theorem dma_error_priority (fam : Family) (d : CcmData)
    (cl ci sc : Buffer) (eng : EngineOutcome) (re rd : RunResult)
    (he : encrypt_packet fam d cl ci sc eng = some re)
    (hd : decrypt_packet fam d cl ci sc eng = some rd)
    (herr : eng.error_event = true) :
    (re.engine_started = true → re.res = some CcmError.EasyDMAError) ∧
    (rd.engine_started = true → rd.res = some CcmError.EasyDMAError) := by
  constructor
  · unfold encrypt_packet at he
    repeat' split at he
    all_goals try (simp only [Option.some.injEq] at he; subst he)
    all_goals simp_all
  · unfold decrypt_packet at hd
    repeat' split at hd
    all_goals try (simp only [Option.some.injEq] at hd; subst hd)
    all_goals simp_all

/-- A 43-byte cipher packet whose length field is 40 (payload 36 + MIC 4). -/
def wCipher40 : Buffer := ⟨0 :: 40 :: 0 :: List.replicate 40 2, true⟩

/-- A 39-byte RAM-resident clear buffer (fits a 36-byte decrypted payload). -/
def wClear39 : Buffer := ⟨List.replicate 39 0, true⟩

/-- A 56-byte RAM-resident scratch buffer (`max(43, 40 + 16) = 56`). -/
def wScratch56 : Buffer := ⟨List.replicate 56 0, true⟩

theorem dma_error_priority_witness :
    encrypt_packet wFam wD wClear wCipher wScratch wEngineErr =
      some ⟨some CcmError.EasyDMAError, wD, [], true, some LENGTH_A.DEFAULT, none⟩ ∧
    decrypt_packet wFam wD wClear39 wCipher40 wScratch56 wEngineErr =
      some ⟨some CcmError.EasyDMAError, wD, [], true, some LENGTH_A.EXTENDED, none⟩ ∧
    wEngineErr.error_event = true ∧
    (((⟨some CcmError.EasyDMAError, wD, [], true, some LENGTH_A.DEFAULT, none⟩ :
        RunResult).engine_started = true →
      (⟨some CcmError.EasyDMAError, wD, [], true, some LENGTH_A.DEFAULT, none⟩ :
        RunResult).res = some CcmError.EasyDMAError)) :=
  ⟨by decide, by decide, by decide,
   (dma_error_priority wFam wD wClear wCipher wScratch wEngineErr
     ⟨some CcmError.EasyDMAError, wD, [], true, some LENGTH_A.DEFAULT, none⟩
     wDecCopyRes
     (by decide) (by decide) (by decide)).1⟩

/-- C6: for both operations, once residency, header and buffer-length checks
have passed (`payload_len ≥ 1` for encrypt, `≥ 5` for decrypt), a scratch
buffer shorter than `max(43, payload_len + 16)` yields
`InsufficientScratchArea` with the engine untouched and no other effect. -/
theorem insufficient_scratch_rejected (fam : Family) (d : CcmData)
    (cl ci sc : Buffer) (eng : EngineOutcome) (re rd : RunResult) (pe pd : Nat)
    (he : encrypt_packet fam d cl ci sc eng = some re)
    (hd : decrypt_packet fam d cl ci sc eng = some rd)
    (hram : (slice_in_ram cl && slice_in_ram ci && slice_in_ram sc) = true) :
    (cl.data.get? LENGTH_HEADER_INDEX = some pe → 1 ≤ pe →
     pe + HEADER_SIZE ≤ cl.data.length → pe + HEADER_SIZE + MIC_SIZE ≤ ci.data.length →
     pe + MIC_SIZE ≤ 255 → sc.data.length < max 43 (pe + 16) →
     re = ⟨some CcmError.InsufficientScratchArea, d, ci.data, false, none, none⟩) ∧
    (ci.data.get? LENGTH_HEADER_INDEX = some pd → 5 ≤ pd →
     pd + HEADER_SIZE ≤ ci.data.length → pd + HEADER_SIZE - MIC_SIZE ≤ cl.data.length →
     sc.data.length < max 43 (pd + 16) →
     rd = ⟨some CcmError.InsufficientScratchArea, d, cl.data, false, none, none⟩) := by
  have hh : HEADER_SIZE = 3 := rfl
  have hm : MIC_SIZE = 4 := rfl
  have hms : MINIMUM_SCRATCH_AREA_SIZE = 43 := rfl
  constructor
  · intro hpe hge hl1 hl2 hl3 hsc
    rw [lt_max_iff] at hsc
    unfold encrypt_packet at he
    rw [hram] at he
    simp only [Bool.not_true, hpe] at he
    repeat' split at he
    all_goals try (simp only [Option.some.injEq] at he; subst he)
    all_goals try rfl
    all_goals simp only [hms, lt_max_iff, max_le_iff, not_lt, not_or] at *
    all_goals try omega
    all_goals simp_all
  · intro hpd hge hl1 hl2 hsc
    rw [lt_max_iff] at hsc
    unfold decrypt_packet at hd
    rw [hram] at hd
    simp only [Bool.not_true, hpd] at hd
    repeat' split at hd
    all_goals try (simp only [Option.some.injEq] at hd; subst hd)
    all_goals try rfl
    all_goals simp only [hms, lt_max_iff, max_le_iff, not_lt, not_or] at *
    all_goals try omega
    all_goals simp_all

/-- A 33-byte cleartext packet with payload length 30. -/
def wClear30 : Buffer := ⟨0 :: 30 :: 0 :: List.replicate 30 7, true⟩

/-- A 37-byte RAM-resident cipher buffer (3 + 30 + 4). -/
def wCipher37 : Buffer := ⟨List.replicate 37 1, true⟩

/-- A 45-byte RAM-resident scratch buffer (one byte too small for payload 30). -/
def wScratch45 : Buffer := ⟨List.replicate 45 0, true⟩

/-- A 46-byte RAM-resident scratch buffer (exactly enough for payload 30). -/
def wScratch46 : Buffer := ⟨List.replicate 46 0, true⟩

theorem insufficient_scratch_rejected_witness :
    encrypt_packet wFam wD wClear30 wCipher37 wScratch45 wEngineOk =
      some ⟨some CcmError.InsufficientScratchArea, wD, wCipher37.data, false, none, none⟩ ∧
    decrypt_packet wFam wD wClear30 wCipher37 wScratch45 wEngineOk =
      some ⟨some CcmError.InvalidMIC, wD, wClear30.data, false, none, none⟩ ∧
    (slice_in_ram wClear30 && slice_in_ram wCipher37 && slice_in_ram wScratch45) = true ∧
    wScratch45.data.length < max 43 (30 + 16) ∧
    encrypt_packet wFam wD wClear30 wCipher37 wScratch46 wEngineOk =
      some ⟨none, wD.increment_counter, [], true, some LENGTH_A.EXTENDED, none⟩ ∧
    ((wClear30.data.get? LENGTH_HEADER_INDEX = some 30 → 1 ≤ 30 →
      30 + HEADER_SIZE ≤ wClear30.data.length →
      30 + HEADER_SIZE + MIC_SIZE ≤ wCipher37.data.length →
      30 + MIC_SIZE ≤ 255 → wScratch45.data.length < max 43 (30 + 16) →
      (⟨some CcmError.InsufficientScratchArea, wD, wCipher37.data, false, none, none⟩ :
          RunResult) =
        ⟨some CcmError.InsufficientScratchArea, wD, wCipher37.data, false, none, none⟩) ∧
     (wCipher37.data.get? LENGTH_HEADER_INDEX = some 1 → 5 ≤ 1 →
      1 + HEADER_SIZE ≤ wCipher37.data.length →
      1 + HEADER_SIZE - MIC_SIZE ≤ wClear30.data.length →
      wScratch45.data.length < max 43 (1 + 16) →
      (⟨some CcmError.InvalidMIC, wD, wClear30.data, false, none, none⟩ : RunResult) =
        ⟨some CcmError.InsufficientScratchArea, wD, wClear30.data, false, none, none⟩)) :=
  ⟨by decide, by decide, by decide, by decide, by decide,
   insufficient_scratch_rejected wFam wD wClear30 wCipher37 wScratch45 wEngineOk
     ⟨some CcmError.InsufficientScratchArea, wD, wCipher37.data, false, none, none⟩
     ⟨some CcmError.InvalidMIC, wD, wClear30.data, false, none, none⟩ 30 1
     (by decide) (by decide) (by decide)⟩

/-- A 254-byte cleartext packet with payload length 251. -/
def wClear251 : Buffer := ⟨0 :: 251 :: 0 :: List.replicate 251 0, true⟩

/-- A 258-byte RAM-resident cipher buffer (3 + 251 + 4). -/
def wCipher258 : Buffer := ⟨List.replicate 258 1, true⟩

/-- A 257-byte RAM-resident cipher buffer (one byte short for payload 251). -/
def wCipher257 : Buffer := ⟨List.replicate 257 1, true⟩

/-- A 267-byte RAM-resident scratch buffer (`max(43, 251 + 16)`). -/
def wScratch267 : Buffer := ⟨List.replicate 267 0, true⟩

set_option maxRecDepth 40000 in
/-- C5: for `encrypt_packet` with `payload_len ≥ 1`, after residency and
header checks pass, a violation of any of the three length rules
(cleartext ≥ 3 + payload_len, ciphertext ≥ 3 + payload_len + 4,
payload_len + 4 ≤ 255) returns `WrongPacketLength`; concretely,
payload 251 with a 258-byte cipher buffer passes length validation (the
call succeeds outright on a good engine) while a 257-byte cipher buffer
fails with `WrongPacketLength`. -/
theorem encrypt_wrong_packet_length (fam : Family) (d : CcmData)
    (cl ci sc : Buffer) (eng : EngineOutcome) (re : RunResult) (pe : Nat)
    (he : encrypt_packet fam d cl ci sc eng = some re)
    (hram : (slice_in_ram cl && slice_in_ram ci && slice_in_ram sc) = true)
    (h3c : HEADER_SIZE ≤ cl.data.length) (h3i : HEADER_SIZE ≤ ci.data.length)
    (hpe : cl.data.get? LENGTH_HEADER_INDEX = some pe) (hge : 1 ≤ pe)
    (hbad : cl.data.length < pe + HEADER_SIZE ∨
            ci.data.length < pe + HEADER_SIZE + MIC_SIZE ∨ 255 < pe + MIC_SIZE) :
    re = ⟨some CcmError.WrongPacketLength, d, ci.data, false, none, none⟩ ∧
    encrypt_packet wFam wD wClear251 wCipher258 wScratch267 wEngineOk =
      some ⟨none, wD.increment_counter, [], true, some LENGTH_A.EXTENDED, none⟩ ∧
    encrypt_packet wFam wD wClear251 wCipher257 wScratch267 wEngineOk =
      some ⟨some CcmError.WrongPacketLength, wD, wCipher257.data, false, none, none⟩ := by
  refine ⟨?_, by decide, by decide⟩
  have hh : HEADER_SIZE = 3 := rfl
  have hm : MIC_SIZE = 4 := rfl
  unfold encrypt_packet at he
  rw [hram] at he
  simp only [Bool.not_true, hpe] at he
  repeat' split at he
  all_goals try (simp only [Option.some.injEq] at he; subst he)
  all_goals try rfl
  all_goals try omega
  all_goals simp_all

set_option maxRecDepth 40000 in
theorem encrypt_wrong_packet_length_witness :
    encrypt_packet wFam wD wClear251 wCipher257 wScratch267 wEngineOk =
      some ⟨some CcmError.WrongPacketLength, wD, wCipher257.data, false, none, none⟩ ∧
    ((⟨some CcmError.WrongPacketLength, wD, wCipher257.data, false, none, none⟩ : RunResult) =
       ⟨some CcmError.WrongPacketLength, wD, wCipher257.data, false, none, none⟩ ∧
     encrypt_packet wFam wD wClear251 wCipher258 wScratch267 wEngineOk =
       some ⟨none, wD.increment_counter, [], true, some LENGTH_A.EXTENDED, none⟩ ∧
     encrypt_packet wFam wD wClear251 wCipher257 wScratch267 wEngineOk =
       some ⟨some CcmError.WrongPacketLength, wD, wCipher257.data, false, none, none⟩) :=
  ⟨by decide,
   encrypt_wrong_packet_length wFam wD wClear251 wCipher257 wScratch267 wEngineOk
     ⟨some CcmError.WrongPacketLength, wD, wCipher257.data, false, none, none⟩ 251
     (by decide) (by decide) (by decide) (by decide) (by decide) (by decide)
     (Or.inr (Or.inl (by decide)))⟩

lemma take_of_take_append (n : Nat) (l t : List Nat) (h : n ≤ l.length) :
    (List.take n l ++ t).take n = List.take n l :=
  List.take_left' (by rw [List.length_take]; omega)

/-- C3: when the length field (byte 1 of the cleartext for encrypt, of the
ciphertext for decrypt) is zero and both packet buffers are at least 3
bytes and RAM-resident, the call succeeds, the output buffer's first 3
bytes become equal to the input buffer's first 3 bytes, the engine is never
invoked, and the `CcmData` (hence the counter) is unchanged. -/
theorem zero_payload_shortcut (fam : Family) (d : CcmData)
    (cl ci sc : Buffer) (eng : EngineOutcome) (re rd : RunResult)
    (he : encrypt_packet fam d cl ci sc eng = some re)
    (hd : decrypt_packet fam d cl ci sc eng = some rd)
    (hram : (slice_in_ram cl && slice_in_ram ci && slice_in_ram sc) = true)
    (h3c : HEADER_SIZE ≤ cl.data.length) (h3i : HEADER_SIZE ≤ ci.data.length) :
    (cl.data.get? LENGTH_HEADER_INDEX = some 0 →
      re = ⟨none, d, cl.data.take HEADER_SIZE ++ ci.data.drop HEADER_SIZE, false, none, none⟩ ∧
      re.out_data.take HEADER_SIZE = cl.data.take HEADER_SIZE ∧
      re.res = none ∧ re.ccm_data = d ∧ re.engine_started = false) ∧
    (ci.data.get? LENGTH_HEADER_INDEX = some 0 →
      rd = ⟨none, d, ci.data.take HEADER_SIZE ++ cl.data.drop HEADER_SIZE, false, none, none⟩ ∧
      rd.out_data.take HEADER_SIZE = ci.data.take HEADER_SIZE ∧
      rd.res = none ∧ rd.ccm_data = d ∧ rd.engine_started = false) := by
  have hh : HEADER_SIZE = 3 := rfl
  constructor
  · intro hpe
    unfold encrypt_packet at he
    rw [hram] at he
    simp only [Bool.not_true, hpe] at he
    repeat' split at he
    all_goals try (simp only [Option.some.injEq] at he; subst he)
    all_goals try exact ⟨rfl, take_of_take_append _ _ _ h3c, rfl, rfl, rfl⟩
    all_goals try omega
    all_goals simp_all
  · intro hpd
    unfold decrypt_packet at hd
    rw [hram] at hd
    simp only [Bool.not_true, hpd] at hd
    repeat' split at hd
    all_goals try (simp only [Option.some.injEq] at hd; subst hd)
    all_goals try exact ⟨rfl, take_of_take_append _ _ _ h3i, rfl, rfl, rfl⟩
    all_goals try omega
    all_goals simp_all

/-- A 3-byte cleartext packet with sentinels 5, 6 and payload length 0. -/
def wClearZ : Buffer := ⟨[5, 0, 6], true⟩

theorem zero_payload_shortcut_witness :
    encrypt_packet wFam wD wClearZ wCipher wScratch wEngineOk =
      some ⟨none, wD, wClearZ.data.take HEADER_SIZE ++ wCipher.data.drop HEADER_SIZE,
            false, none, none⟩ ∧
    decrypt_packet wFam wD wClearZ wCipher wScratch wEngineOk =
      some ⟨none, wD, wCipher.data.take HEADER_SIZE ++ wClearZ.data.drop HEADER_SIZE,
            false, none, none⟩ ∧
    ((wClearZ.data.get? LENGTH_HEADER_INDEX = some 0 →
      (⟨none, wD, wClearZ.data.take HEADER_SIZE ++ wCipher.data.drop HEADER_SIZE,
        false, none, none⟩ : RunResult) =
        ⟨none, wD, wClearZ.data.take HEADER_SIZE ++ wCipher.data.drop HEADER_SIZE,
         false, none, none⟩ ∧
      (⟨none, wD, wClearZ.data.take HEADER_SIZE ++ wCipher.data.drop HEADER_SIZE,
        false, none, none⟩ : RunResult).out_data.take HEADER_SIZE =
          wClearZ.data.take HEADER_SIZE ∧
      (⟨none, wD, wClearZ.data.take HEADER_SIZE ++ wCipher.data.drop HEADER_SIZE,
        false, none, none⟩ : RunResult).res = none ∧
      (⟨none, wD, wClearZ.data.take HEADER_SIZE ++ wCipher.data.drop HEADER_SIZE,
        false, none, none⟩ : RunResult).ccm_data = wD ∧
      (⟨none, wD, wClearZ.data.take HEADER_SIZE ++ wCipher.data.drop HEADER_SIZE,
        false, none, none⟩ : RunResult).engine_started = false) ∧
     (wCipher.data.get? LENGTH_HEADER_INDEX = some 0 →
      (⟨none, wD, wCipher.data.take HEADER_SIZE ++ wClearZ.data.drop HEADER_SIZE,
        false, none, none⟩ : RunResult) =
        ⟨none, wD, wCipher.data.take HEADER_SIZE ++ wClearZ.data.drop HEADER_SIZE,
         false, none, none⟩ ∧
      (⟨none, wD, wCipher.data.take HEADER_SIZE ++ wClearZ.data.drop HEADER_SIZE,
        false, none, none⟩ : RunResult).out_data.take HEADER_SIZE =
          wCipher.data.take HEADER_SIZE ∧
      (⟨none, wD, wCipher.data.take HEADER_SIZE ++ wClearZ.data.drop HEADER_SIZE,
        false, none, none⟩ : RunResult).res = none ∧
      (⟨none, wD, wCipher.data.take HEADER_SIZE ++ wClearZ.data.drop HEADER_SIZE,
        false, none, none⟩ : RunResult).ccm_data = wD ∧
      (⟨none, wD, wCipher.data.take HEADER_SIZE ++ wClearZ.data.drop HEADER_SIZE,
        false, none, none⟩ : RunResult).engine_started = false)) :=
  ⟨by decide, by decide,
   zero_payload_shortcut wFam wD wClearZ wCipher wScratch wEngineOk
     ⟨none, wD, wClearZ.data.take HEADER_SIZE ++ wCipher.data.drop HEADER_SIZE,
      false, none, none⟩
     ⟨none, wD, wCipher.data.take HEADER_SIZE ++ wClearZ.data.drop HEADER_SIZE,
      false, none, none⟩
     (by decide) (by decide) (by decide) (by decide) (by decide)⟩

set_option maxHeartbeats 1000000 in
/-- C4: `decrypt_packet` returns `InvalidMIC` in exactly two cases: (a) the
residency and 3-byte-header checks pass and the ciphertext length field is
in `(0, 5)` — before any further buffer-size or scratch check and without
the engine (second conjunct) — or (b) the engine run completes with no
error signal but the MIC-status reports failure; and `encrypt_packet`
never returns `InvalidMIC`. -/
theorem invalid_mic_exactly (fam : Family) (d : CcmData)
    (cl ci sc : Buffer) (eng : EngineOutcome) (re rd : RunResult)
    (he : encrypt_packet fam d cl ci sc eng = some re)
    (hd : decrypt_packet fam d cl ci sc eng = some rd) :
    (rd.res = some CcmError.InvalidMIC ↔
      (((slice_in_ram cl && slice_in_ram ci && slice_in_ram sc) = true ∧
        HEADER_SIZE ≤ cl.data.length ∧ HEADER_SIZE ≤ ci.data.length ∧
        (∃ pl, ci.data.get? LENGTH_HEADER_INDEX = some pl ∧ 0 < pl ∧ pl < 5)) ∨
       (rd.engine_started = true ∧ eng.error_event = false ∧ eng.mic_check_failed = true))) ∧
    ((∃ pl, ci.data.get? LENGTH_HEADER_INDEX = some pl ∧ 0 < pl ∧ pl < 5) →
      rd.engine_started = false ∧ rd.ccm_data = d) ∧
    re.res ≠ some CcmError.InvalidMIC := by
  have hh : HEADER_SIZE = 3 := rfl
  refine ⟨?_, ?_, ?_⟩
  · unfold decrypt_packet at hd
    repeat' split at hd
    all_goals try (simp only [Option.some.injEq] at hd; subst hd)
    all_goals simp_all
    all_goals try omega
    all_goals intros
    all_goals simp_all
  · intro hex
    obtain ⟨pl, hpl, hpl0, hpl5⟩ := hex
    unfold decrypt_packet at hd
    simp only [hpl] at hd
    repeat' split at hd
    all_goals try (simp only [Option.some.injEq] at hd; subst hd)
    all_goals try exact ⟨rfl, rfl⟩
    all_goals try omega
  · unfold encrypt_packet at he
    repeat' split at he
    all_goals try (simp only [Option.some.injEq] at he; subst he)
    all_goals simp_all

/-- A 3-byte cipher packet whose length field is 2 (in the guaranteed
MIC-failure range `(0, 5)`). -/
def wCipherS : Buffer := ⟨[0, 2, 0], true⟩

theorem invalid_mic_exactly_witness :
    encrypt_packet wFam wD wClear wCipherS wScratch wEngineOk =
      some ⟨some CcmError.WrongPacketLength, wD, wCipherS.data, false, none, none⟩ ∧
    decrypt_packet wFam wD wClear wCipherS wScratch wEngineOk =
      some ⟨some CcmError.InvalidMIC, wD, wClear.data, false, none, none⟩ ∧
    (((⟨some CcmError.InvalidMIC, wD, wClear.data, false, none, none⟩ : RunResult).res =
        some CcmError.InvalidMIC ↔
      (((slice_in_ram wClear && slice_in_ram wCipherS && slice_in_ram wScratch) = true ∧
        HEADER_SIZE ≤ wClear.data.length ∧ HEADER_SIZE ≤ wCipherS.data.length ∧
        (∃ pl, wCipherS.data.get? LENGTH_HEADER_INDEX = some pl ∧ 0 < pl ∧ pl < 5)) ∨
       ((⟨some CcmError.InvalidMIC, wD, wClear.data, false, none, none⟩ :
           RunResult).engine_started = true ∧
        wEngineOk.error_event = false ∧ wEngineOk.mic_check_failed = true))) ∧
     ((∃ pl, wCipherS.data.get? LENGTH_HEADER_INDEX = some pl ∧ 0 < pl ∧ pl < 5) →
      (⟨some CcmError.InvalidMIC, wD, wClear.data, false, none, none⟩ :
          RunResult).engine_started = false ∧
      (⟨some CcmError.InvalidMIC, wD, wClear.data, false, none, none⟩ :
          RunResult).ccm_data = wD) ∧
     (⟨some CcmError.WrongPacketLength, wD, wCipherS.data, false, none, none⟩ :
         RunResult).res ≠ some CcmError.InvalidMIC) :=
  ⟨by decide, by decide,
   invalid_mic_exactly wFam wD wClear wCipherS wScratch wEngineOk
     ⟨some CcmError.WrongPacketLength, wD, wCipherS.data, false, none, none⟩
     ⟨some CcmError.InvalidMIC, wD, wClear.data, false, none, none⟩
     (by decide) (by decide)⟩

/-- A 31-byte cipher packet whose length field is 28 (27 < 28 ≤ 31). -/
def wCipher28 : Buffer := ⟨0 :: 28 :: 0 :: List.replicate 28 2, true⟩

/-- A 27-byte RAM-resident clear buffer (fits a 24-byte decrypted payload). -/
def wClear27 : Buffer := ⟨List.replicate 27 0, true⟩

/-- A 44-byte RAM-resident scratch buffer (enough for length field 28). -/
def wScratch44 : Buffer := ⟨List.replicate 44 0, true⟩

/-- A 31-byte cleartext packet with payload length 28. -/
def wClear28 : Buffer := ⟨0 :: 28 :: 0 :: List.replicate 28 3, true⟩

/-- A 35-byte RAM-resident cipher buffer (3 + 28 + 4). -/
def wCipher35 : Buffer := ⟨List.replicate 35 1, true⟩

/-- C2 counterexample: with ciphertext length field 28 (which is > 27),
`decrypt_packet` on a non-51 family selects the DEFAULT length encoding,
not EXTENDED, so it does not mirror the encrypt rule at the same
`payload_len` (encrypt at 28 selects EXTENDED); and the 51-family does not
reject length field 28 — the call succeeds. -/
theorem decrypt_length_encoding_counterexample :
    (decrypt_packet wFam wD wClear27 wCipher28 wScratch44 wEngineOk).map
        RunResult.length_variant = some (some LENGTH_A.DEFAULT) ∧
    (encrypt_packet wFam wD wClear28 wCipher35 wScratch44 wEngineOk).map
        RunResult.length_variant = some (some LENGTH_A.EXTENDED) ∧
    (decrypt_packet wFam51 wD wClear27 wCipher28 wScratch44 wEngineOk).map
        RunResult.res = some none ∧
    (27 : Nat) < 28 ∧ some LENGTH_A.DEFAULT ≠ some LENGTH_A.EXTENDED := by decide

set_option maxHeartbeats 1000000 in
/-- C2 (amended): for `decrypt_packet` the length-encoding threshold is 31
(`MAXIMUM_LENGTH_5BITS`), not 27: on non-51 families DEFAULT is used when
the ciphertext length field `payload_len ≤ 31` and EXTENDED when
`payload_len > 31`; on the 51-family (no extended encoding) the engine is
reached only with `payload_len ≤ 31`, and once all earlier checks pass a
length field `> 31` is rejected with `WrongPacketLength`. -/
theorem decrypt_length_encoding_amended (fam : Family) (d : CcmData)
    (cl ci sc : Buffer) (eng : EngineOutcome) (rd : RunResult) (pd : Nat)
    (hd : decrypt_packet fam d cl ci sc eng = some rd)
    (hpd : ci.data.get? LENGTH_HEADER_INDEX = some pd) :
    (rd.engine_started = true → rd.length_variant = decLengthVariant fam pd) ∧
    (rd.engine_started = true → fam.feature51 = false →
      rd.length_variant =
        if pd ≤ MAXIMUM_LENGTH_5BITS then some LENGTH_A.DEFAULT
        else some LENGTH_A.EXTENDED) ∧
    (rd.engine_started = true → fam.feature51 = true → pd ≤ MAXIMUM_LENGTH_5BITS) ∧
    ((slice_in_ram cl && slice_in_ram ci && slice_in_ram sc) = true → 5 ≤ pd →
     pd + HEADER_SIZE ≤ ci.data.length → pd + HEADER_SIZE - MIC_SIZE ≤ cl.data.length →
     max 43 (pd + 16) ≤ sc.data.length → fam.feature51 = true → MAXIMUM_LENGTH_5BITS < pd →
     rd = ⟨some CcmError.WrongPacketLength, d, cl.data, false, none, none⟩) := by
  have hh : HEADER_SIZE = 3 := rfl
  have hm : MIC_SIZE = 4 := rfl
  have hms : MINIMUM_SCRATCH_AREA_SIZE = 43 := rfl
  unfold decrypt_packet at hd
  simp only [hpd] at hd
  repeat' split at hd
  all_goals try (simp only [Option.some.injEq] at hd; subst hd)
  all_goals refine ⟨?_, ?_, ?_, ?_⟩
  all_goals intros
  all_goals try rfl
  all_goals try (simp only [hms, lt_max_iff, max_le_iff, not_lt, not_or] at *)
  all_goals try omega
  all_goals simp_all [decLengthVariant]

theorem decrypt_length_encoding_amended_witness :
    decrypt_packet wFam wD wClear27 wCipher28 wScratch44 wEngineOk =
      some ⟨none, wD.increment_counter, [], true, some LENGTH_A.DEFAULT, none⟩ ∧
    wCipher28.data.get? LENGTH_HEADER_INDEX = some 28 ∧
    (((⟨none, wD.increment_counter, [], true, some LENGTH_A.DEFAULT, none⟩ :
         RunResult).engine_started = true →
      (⟨none, wD.increment_counter, [], true, some LENGTH_A.DEFAULT, none⟩ :
         RunResult).length_variant = decLengthVariant wFam 28) ∧
     ((⟨none, wD.increment_counter, [], true, some LENGTH_A.DEFAULT, none⟩ :
         RunResult).engine_started = true → wFam.feature51 = false →
      (⟨none, wD.increment_counter, [], true, some LENGTH_A.DEFAULT, none⟩ :
         RunResult).length_variant =
        if 28 ≤ MAXIMUM_LENGTH_5BITS then some LENGTH_A.DEFAULT
        else some LENGTH_A.EXTENDED) ∧
     ((⟨none, wD.increment_counter, [], true, some LENGTH_A.DEFAULT, none⟩ :
         RunResult).engine_started = true → wFam.feature51 = true →
      28 ≤ MAXIMUM_LENGTH_5BITS) ∧
     ((slice_in_ram wClear27 && slice_in_ram wCipher28 && slice_in_ram wScratch44) = true →
      5 ≤ 28 → 28 + HEADER_SIZE ≤ wCipher28.data.length →
      28 + HEADER_SIZE - MIC_SIZE ≤ wClear27.data.length →
      max 43 (28 + 16) ≤ wScratch44.data.length → wFam.feature51 = true →
      MAXIMUM_LENGTH_5BITS < 28 →
      (⟨none, wD.increment_counter, [], true, some LENGTH_A.DEFAULT, none⟩ : RunResult) =
        ⟨some CcmError.WrongPacketLength, wD, wClear27.data, false, none, none⟩)) :=
  ⟨by decide, by decide,
   decrypt_length_encoding_amended wFam wD wClear27 wCipher28 wScratch44 wEngineOk
     ⟨none, wD.increment_counter, [], true, some LENGTH_A.DEFAULT, none⟩ 28
     (by decide) (by decide)⟩
